import Mathlib

/-!
Shallow embedding of the Enhanced Calculator core
(`app/calculator.py`, `app/operations.py`, `app/input_validators.py`).

Modelling conventions:
* Python `Decimal` values are modelled as exact rationals (`ℚ`).  The 28-digit
  context rounding of `Decimal` arithmetic never influences any property proved
  here (no settled property inspects a rounded quotient), and `normalize()` is
  the identity on the rational value.
* The `Decimal(str(value))` string parse performed by
  `InputValidator.validate_number` is modelled by giving `perform_operation`
  inputs of type `Option ℚ`: `none` stands for a string the `Decimal`
  constructor rejects (raising `InvalidOperation`), `some q` for a string that
  parses to the value `q`.
* Python lists used as stacks (`append`/`pop` at the end) are modelled as Lean
  lists with the head as the stack top; the observer list keeps registration
  order, `add_observer` appending at the end.
* `float(num_a)` narrowing before recording a `Calculation`, and the IEEE-754
  value of `pow` used by `Power`/`Root`, are not given bit-level semantics: the
  narrowing is the identity on the modelled value and the `pow` result is a
  placeholder (`floatPowApprox`).  No settled property depends on these values.
* `app/calculation.py` (the `Calculation` entity and `CalculationFactory`) is
  not part of the sources; it is modelled from the spec where noted.
-/

deriving instance DecidableEq for Except

/-- Arithmetic operation strategies of `app/operations.py`
(`Addition`, `Subtraction`, `Multiplication`, `Division`, `Power`, `Root`). -/
inductive Op : Type where
  | add
  | subtract
  | multiply
  | divide
  | power
  | root
deriving DecidableEq, Repr

/-- Registered `name` class attribute of each operation strategy. -/
def Op.name : Op → String
  | .add => "add"
  | .subtract => "subtract"
  | .multiply => "multiply"
  | .divide => "divide"
  | .power => "power"
  | .root => "root"

/-- Placeholder for `Decimal(pow(float(a), float(b)))` in `Power.execute` /
`Root.execute`.  IEEE-754 double semantics are outside this embedding; the
value returned here is exact integer power where that is meaningful and `0`
otherwise, and no settled property inspects it. -/
def floatPowApprox (a b : ℚ) : ℚ :=
  if b.den = 1 ∧ 0 ≤ b then a ^ b.num.toNat else 0

/-- Operand validation of each strategy (`validate_operands` overrides):
`Division` rejects `b == 0`, `Power` rejects `b < 0`, `Root` rejects `a < 0`
and `b == 0`; the base class accepts everything.  The returned message is the
`ValidationError` message raised by the source. -/
def Op.validate : Op → ℚ → ℚ → Option String
  | .divide, _, b => if b = 0 then some "Division by zero is not allowed" else none
  | .power, _, b => if b < 0 then some "Negative exponents not supported" else none
  | .root, a, b =>
      if a < 0 then some "Cannot calculate root of negative number"
      else if b = 0 then some "Zero root is undefined"
      else none
  | _, _, _ => none

/-- Strategy `execute`: every implementation first calls `validate_operands`
and then computes, so a validation failure aborts with the error message and
no value is produced. -/
def Op.execute (op : Op) (a b : ℚ) : Except String ℚ :=
  match op.validate a b with
  | some msg => .error msg
  | none =>
    match op with
    | .add => .ok (a + b)
    | .subtract => .ok (a - b)
    | .multiply => .ok (a * b)
    | .divide => .ok (a / b)
    | .power => .ok (floatPowApprox a b)
    | .root => .ok (floatPowApprox a b⁻¹)

/-- Calculation record held in the calculator history: the operation
identifier and the two operands (`result` is recomputed from these on access,
see `Calculation.result`).  Modelled from the spec: `app/calculation.py` is not
among the sources; its field set `{operation, operand1, operand2}` with a
derived `result` follows §4.2 of the specification and the unit tests. -/
structure Calculation where
  operation : String
  operand1 : ℚ
  operand2 : ℚ
deriving DecidableEq, Repr

/-- Lookup of an operation identifier in the registry of calculation types
(the six built-ins of `OperationFactory._operations`, mirrored by the
calculation-type registry).  Modelled from the spec: the `CalculationFactory`
registry lives in the missing `app/calculation.py`; its registered names are
the six shown by the unit tests and §4.1 of the specification. -/
def opOfName (n : String) : Option Op :=
  if n = "add" then some .add
  else if n = "subtract" then some .subtract
  else if n = "multiply" then some .multiply
  else if n = "divide" then some .divide
  else if n = "power" then some .power
  else if n = "root" then some .root
  else none

/-- Modelled from the spec: `CalculationFactory.create_calculation(type, a, b)`
of the missing `app/calculation.py` — looks the identifier up in the registry
and fails with `ValueError("Unsupported calculation type …")` when it is
absent; construction itself never evaluates the result. -/
def CalculationFactory.create_calculation (t : String) (a b : ℚ) :
    Except String Calculation :=
  match opOfName t with
  | some _ => .ok ⟨t, a, b⟩
  | none => .error ("Unsupported calculation type: " ++ t)

/-- Modelled from the spec: `Calculation.result` of the missing
`app/calculation.py` recomputes the result from operation and operands on
access, raising the validation error of the operation when the operands are
invalid (errors raised on access, §4.2 / §9 of the specification). -/
def Calculation.result (c : Calculation) : Except String ℚ :=
  match opOfName c.operation with
  | none => .error ("Unsupported calculation type: " ++ c.operation)
  | some op => op.execute c.operand1 c.operand2

/-- Absolute value as used by `abs(number)` in
`InputValidator.validate_number`. -/
def decimalAbs (q : ℚ) : ℚ := if q < 0 then -q else q

/-- Errors raised out of `Calculator.perform_operation`: `ValidationError`
from input validation, `OperationError` from the operation phase, and the
modelling artefact `uncaught` for exceptions the source would not catch
(never produced for the built-in strategies). -/
inductive CalcError : Type where
  | validation (msg : String)
  | operation (msg : String)
  | uncaught (msg : String)
deriving DecidableEq, Repr

/-- Embedding of `InputValidator.validate_number`: a failed `Decimal` parse
(`none`) raises `ValidationError("Invalid number format …")`; a parsed value
whose absolute value exceeds `max_input_value` raises
`ValidationError("Value exceeds maximum allowed …")`; otherwise the normalized
value is returned (normalization is the identity on the rational value). -/
def validate_number (value : Option ℚ) (maxInput : ℚ) : Except String ℚ :=
  match value with
  | none => .error "Invalid number format"
  | some q =>
      if maxInput < decimalAbs q then .error "Value exceeds maximum allowed"
      else .ok q

/-- State of a `Calculator` instance: the relevant configuration field
(`config.max_input_value`), the history, the registered observers (by
identity, in registration order), the undo and redo stacks of history
snapshots (`CalculatorMemento` holds a copy of the history; its timestamp
plays no role), and the armed operation. -/
structure CalcState where
  maxInput : ℚ
  history : List Calculation
  observers : List ℕ
  undoStack : List (List Calculation)
  redoStack : List (List Calculation)
  operation : Option Op
deriving DecidableEq, Repr

/-- Fresh calculator as produced by `Calculator.__init__`. -/
def CalcState.init (maxInput : ℚ) : CalcState :=
  ⟨maxInput, [], [], [], [], none⟩

/-- Embedding of `Calculator.add_observer` (the `isinstance` type check is
subsumed by typing; observers are identified by a number). -/
def add_observer (s : CalcState) (o : ℕ) : CalcState :=
  { s with observers := s.observers ++ [o] }

/-- Embedding of `Calculator.set_operation`. -/
def set_operation (s : CalcState) (op : Op) : CalcState :=
  { s with operation := some op }

/-- Embedding of `Calculator.perform_operation`.  Returns the raised error or
the decimal result, the post-call state (on an exception, the state as the
partial mutations left it), and the list of observer notifications
`(observer, calculation)` issued by `_notify_observers`, in order. -/
def perform_operation (s : CalcState) (a b : Option ℚ) :
    Except CalcError ℚ × CalcState × List (ℕ × Calculation) :=
  match validate_number a s.maxInput with
  | .error m => (.error (.validation m), s, [])
  | .ok numA =>
    match validate_number b s.maxInput with
    | .error m => (.error (.validation m), s, [])
    | .ok numB =>
      match s.operation with
      | none => (.error (.operation "No operation set. Call set_operation() first."), s, [])
      | some op =>
        -- snapshot pushed before mutating, redo stack cleared
        let s1 : CalcState := { s with undoStack := s.history :: s.undoStack, redoStack := [] }
        match op.execute numA numB with
        | .error m =>
            -- rollback: pop the just-pushed undo snapshot, re-raise as OperationError
            (.error (.operation m), { s1 with undoStack := s1.undoStack.tail }, [])
        | .ok result =>
            match CalculationFactory.create_calculation op.name numA numB with
            | .error m => (.error (.uncaught m), s1, [])
            | .ok c =>
                (.ok result,
                 { s1 with history := s1.history ++ [c] },
                 s.observers.map (fun o => (o, c)))

/-- Embedding of `Calculator.clear_history`. -/
def clear_history (s : CalcState) : CalcState :=
  { s with history := [], undoStack := [], redoStack := [] }

/-- Embedding of `Calculator.undo`: returns whether an undo happened together
with the new state. -/
def undo (s : CalcState) : Bool × CalcState :=
  match s.undoStack with
  | [] => (false, s)
  | m :: rest =>
      (true, { s with redoStack := s.history :: s.redoStack,
                      undoStack := rest,
                      history := m })

/-- Embedding of `Calculator.redo`. -/
def redo (s : CalcState) : Bool × CalcState :=
  match s.redoStack with
  | [] => (false, s)
  | m :: rest =>
      (true, { s with undoStack := s.history :: s.undoStack,
                      redoStack := rest,
                      history := m })

/-- One row of the persisted CSV file: the operation cell text and the
numeric value of each operand cell, `none` standing for a cell whose text
`float(...)` rejects (the `result` cell is written by `save_history` but never
read back by `load_history`). -/
structure Row where
  operation : String
  operand1 : Option ℚ
  operand2 : Option ℚ
  result : Option ℚ
deriving DecidableEq, Repr

/-- Row-level parse performed inside the `load_history` loop: convert both
operand cells with `float(...)` and rebuild the entry through
`CalculationFactory.create_calculation`; any `ValueError`/`KeyError` makes the
row invalid (it is skipped with a logged warning). -/
def parseRow (r : Row) : Option Calculation :=
  match r.operand1, r.operand2 with
  | some x, some y => (CalculationFactory.create_calculation r.operation x y).toOption
  | _, _ => none

/-- Validity of a persisted row as the specification states it: registered
operation identifier and both operand cells numeric. -/
def validRow (r : Row) : Bool :=
  (opOfName r.operation).isSome && r.operand1.isSome && r.operand2.isSome

/-- Calculation a valid row denotes. -/
def rowCalc (r : Row) : Calculation :=
  ⟨r.operation, r.operand1.getD 0, r.operand2.getD 0⟩

/-- Embedding of `Calculator.load_history`: `none` stands for an absent
history file (no-op); otherwise the history is cleared and repopulated
row-by-row, skipping invalid rows.  The undo/redo stacks, observers and armed
operation are untouched. -/
def load_history (s : CalcState) (file : Option (List Row)) : CalcState :=
  match file with
  | none => s
  | some rows => { s with history := rows.filterMap parseRow }

/-- Row written by `save_history` for one history entry: the dict
`{operation, operand1, operand2, result}` built in the list comprehension;
reading `calc.result` raises the validation error of the entry. -/
def rowOfCalc (c : Calculation) : Except String Row :=
  (c.result).map fun r => ⟨c.operation, some c.operand1, some c.operand2, some r⟩

/-- Serialization of a history list in order, as by the records list
comprehension of `save_history`: the first entry whose `result` read raises
propagates its error. -/
def rowsOf : List Calculation → Except String (List Row)
  | [] => .ok []
  | c :: rest => do
      let r ← rowOfCalc c
      let rs ← rowsOf rest
      pure (r :: rs)

/-- Embedding of `Calculator.save_history`: serialize each history entry as a
row, in history order (an error while reading a result propagates out). -/
def save_history (s : CalcState) : Except String (List Row) :=
  rowsOf s.history

/-- Session of `performOperation` calls, arming the given operation before
each call; `none` when some call fails. -/
def runSession (s : CalcState) : List (Op × Option ℚ × Option ℚ) → Option CalcState
  | [] => some s
  | (op, a, b) :: rest =>
      match perform_operation (set_operation s op) a b with
      | (.ok _, s1, _) => runSession s1 rest
      | (.error _, _, _) => none

/-- Iterated `undo`: final state together with the conjunction of the
returned flags (`true` when every call returned `True`). -/
def undoN : ℕ → CalcState → CalcState × Bool
  | 0, s => (s, true)
  | k + 1, s =>
      let (ok1, s1) := undo s
      let (s2, ok2) := undoN k s1
      (s2, ok1 && ok2)

/-- Iterated `redo`, analogously. -/
def redoN : ℕ → CalcState → CalcState × Bool
  | 0, s => (s, true)
  | k + 1, s =>
      let (ok1, s1) := redo s
      let (s2, ok2) := redoN k s1
      (s2, ok1 && ok2)

/-- Example calculation used by the concrete instantiations below. -/
def cA : Calculation := Calculation.mk "add" 1 1

/-- Second example calculation. -/
def cB : Calculation := Calculation.mk "subtract" 5 2

/-- Calculator with divide armed, one recorded entry and snapshots on both
stacks, about to hit a division-by-zero error. -/
def errState : CalcState := ⟨100, [cA], [7], [[]], [[cA]], some .divide⟩

/-- State `perform_operation errState (some 8) (some 0)` leaves behind: the
undo snapshot was rolled back, only the redo stack was cleared. -/
def errPost : CalcState := ⟨100, [cA], [7], [[]], [], some .divide⟩

/-- Calculator produced by two successful operations from a fresh state. -/
def sessionState : CalcState :=
  ⟨1000000, [Calculation.mk "add" 2 3, Calculation.mk "multiply" 2 2], [],
   [[Calculation.mk "add" 2 3], []], [], some .multiply⟩

/-- Calculator with nonempty undo and redo stacks and one observer. -/
def mixState : CalcState := ⟨100, [cA], [3], [[]], [[cA, cB]], some .add⟩

/-- Result state of a successful `perform_operation mixState (some 1) (some 2)`. -/
def mixSucc : CalcState :=
  ⟨100, [cA, Calculation.mk "add" 1 2], [3], [[cA], []], [], some .add⟩

/-- Result state of `undo mixState`. -/
def mixUndo : CalcState := ⟨100, [], [3], [], [[cA], [cA, cB]], some .add⟩

/-- Result state of `redo mixState`. -/
def mixRedo : CalcState := ⟨100, [cA, cB], [3], [[cA], []], [], some .add⟩

/-- Calculator with the same observer registered twice among three entries. -/
def obsState : CalcState := ⟨100, [], [5, 7, 5], [], [], some .multiply⟩

/-- Result state of a successful `perform_operation obsState (some 4) (some 2)`. -/
def obsSucc : CalcState :=
  ⟨100, [Calculation.mk "multiply" 4 2], [5, 7, 5], [[]], [], some .multiply⟩

/-- Notifications issued by that call: one per registration, in order. -/
def obsEvs : List (ℕ × Calculation) :=
  [(5, Calculation.mk "multiply" 4 2), (7, Calculation.mk "multiply" 4 2),
   (5, Calculation.mk "multiply" 4 2)]

/-- Calculator holding one recorded entry, ready to be saved. -/
def saveState : CalcState := ⟨100, [Calculation.mk "add" 2 3], [], [], [], none⟩

/-- Calculator with divide armed and an empty history, for the
division-by-zero scenario of the specification. -/
def divState : CalcState :=
  { CalcState.init 1000000 with operation := some .divide }

/-- Persisted file with one valid and one invalid row. -/
def fileW : Option (List Row) :=
  some [Row.mk "add" (some 1) (some 2) (some 3),
        Row.mk "bogus" (some 1) (some 2) none]

/-- Characterization of a successful `perform_operation` call: one new history
entry, the pre-call history pushed as undo snapshot, redo stack emptied, all
other fields untouched, and one notification per registered observer with the
new entry, in registration order. -/
lemma perform_ok (s : CalcState) (a b : Option ℚ) (r : ℚ) (s' : CalcState)
    (evs : List (ℕ × Calculation))
    (h : perform_operation s a b = (.ok r, s', evs)) :
    ∃ c, s'.history = s.history ++ [c] ∧ s'.undoStack = s.history :: s.undoStack ∧
      s'.redoStack = [] ∧ s'.observers = s.observers ∧ s'.operation = s.operation ∧
      s'.maxInput = s.maxInput ∧ evs = s.observers.map (fun o => (o, c)) := by
  unfold perform_operation at h
  split at h
  · simp_all
  · split at h
    · simp_all
    · split at h
      · simp_all
      · split at h
        · simp_all
        · split at h
          · simp_all
          · simp only [Prod.mk.injEq] at h
            obtain ⟨-, h2, h3⟩ := h
            subst h2 h3
            exact ⟨_, rfl, rfl, rfl, rfl, rfl, rfl, rfl⟩

/-- Behaviour of `undo` on a nonempty undo stack. -/
lemma undo_cons (s : CalcState) (m : List Calculation) (rest : List (List Calculation))
    (h : s.undoStack = m :: rest) :
    undo s = (true,
      { s with redoStack := s.history :: s.redoStack, undoStack := rest, history := m }) := by
  unfold undo
  rw [h]

/-- Behaviour of `redo` on a nonempty redo stack. -/
lemma redo_cons (s : CalcState) (m : List Calculation) (rest : List (List Calculation))
    (h : s.redoStack = m :: rest) :
    redo s = (true,
      { s with undoStack := s.history :: s.undoStack, redoStack := rest, history := m }) := by
  unfold redo
  rw [h]

/-- Iterated `redo` can be unrolled from the far end as well. -/
lemma redoN_succ_last (k : ℕ) : ∀ x : CalcState,
    redoN (k + 1) x = ((redo (redoN k x).1).2, (redoN k x).2 && (redo (redoN k x).1).1) := by
  induction k with
  | zero => intro x; simp [redoN]
  | succ k ih =>
      intro x
      have h1 : redoN (k + 2) x =
          ((redoN (k + 1) (redo x).2).1, (redo x).1 && (redoN (k + 1) (redo x).2).2) := by
        simp [redoN]
      rw [h1, ih]
      have h2 : redoN (k + 1) x =
          ((redoN k (redo x).2).1, (redo x).1 && (redoN k (redo x).2).2) := by
        simp [redoN]
      rw [h2]
      simp [Bool.and_assoc]

/-- Undoing `k` times (each call succeeding) and then redoing `k` times
restores the starting state exactly, as long as the undo stack holds at least
`k` snapshots. -/
lemma undo_redo_cancel (k : ℕ) : ∀ s : CalcState, k ≤ s.undoStack.length →
    (undoN k s).2 = true ∧ redoN k (undoN k s).1 = (s, true) := by
  induction k with
  | zero => intro s _; exact ⟨rfl, rfl⟩
  | succ k ih =>
      intro s hk
      obtain ⟨mx, h, o, u, r, op⟩ := s
      match u with
      | [] => simp at hk
      | m :: rest =>
          have hu : undo ⟨mx, h, o, m :: rest, r, op⟩ =
              (true, ⟨mx, m, o, rest, h :: r, op⟩) := rfl
          have hlen : k ≤ (CalcState.mk mx m o rest (h :: r) op).undoStack.length := by
            simpa using Nat.lt_succ_iff.mp (Nat.lt_of_lt_of_le (Nat.lt_succ_self k) hk)
          obtain ⟨hflag, hredo⟩ := ih ⟨mx, m, o, rest, h :: r, op⟩ hlen
          have hstep : undoN (k + 1) ⟨mx, h, o, m :: rest, r, op⟩ =
              ((undoN k ⟨mx, m, o, rest, h :: r, op⟩).1,
               true && (undoN k ⟨mx, m, o, rest, h :: r, op⟩).2) := by
            simp [undoN, hu]
          refine ⟨by rw [hstep]; simp [hflag], ?_⟩
          rw [hstep]
          simp only [Bool.true_and]
          rw [redoN_succ_last, hredo]
          have hr : redo (⟨mx, m, o, rest, h :: r, op⟩ : CalcState) =
              (true, ⟨mx, h, o, m :: rest, r, op⟩) := rfl
          simp [hr]

/-- Each successful call of a session grows the undo stack by one. -/
lemma runSession_undo_length : ∀ (inputs : List (Op × Option ℚ × Option ℚ))
    (s s' : CalcState), runSession s inputs = some s' →
    s'.undoStack.length = s.undoStack.length + inputs.length := by
  intro inputs
  induction inputs with
  | nil => intro s s' h; simp [runSession] at h; subst h; rfl
  | cons p rest ih =>
      intro s s' h
      obtain ⟨op, a, b⟩ := p
      unfold runSession at h
      split at h
      next r s1 evs heq =>
        have := perform_ok (set_operation s op) a b r s1 evs heq
        obtain ⟨c, -, hundo, -⟩ := this
        have h1 := ih s1 s' h
        rw [h1, hundo]
        simp [set_operation, List.length_cons]
        omega
      next => exact absurd h (by simp)

/-- Rows parse back exactly when they are valid, to the denoted calculation. -/
lemma parseRow_eq (r : Row) :
    parseRow r = if validRow r then some (rowCalc r) else none := by
  obtain ⟨op, a, b, res⟩ := r
  cases a <;> cases b <;>
    simp only [parseRow, validRow, rowCalc, CalculationFactory.create_calculation,
      Option.isSome_none, Option.isSome_some, Bool.and_true, Bool.and_false,
      Bool.false_and, Bool.true_and, if_neg, Bool.false_eq_true] <;>
    try rfl
  cases hop : opOfName op <;> simp [hop, Except.toOption]

/-- The load loop keeps exactly the valid rows, in file order. -/
lemma filterMap_parseRow (rows : List Row) :
    rows.filterMap parseRow = (rows.filter validRow).map rowCalc := by
  induction rows with
  | nil => rfl
  | cons r rest ih =>
      rw [List.filterMap_cons, parseRow_eq, List.filter_cons]
      by_cases h : validRow r
      · simp [h, ih]
      · simp [h, ih]

/-- Histories whose entries all have a readable result serialize without
error, and the written rows parse back to the same history. -/
lemma rowsOf_round_trip (h : List Calculation)
    (hok : ∀ c ∈ h, ∃ r, c.result = .ok r) :
    ∃ rows, rowsOf h = .ok rows ∧ rows.filterMap parseRow = h := by
  induction h with
  | nil => exact ⟨[], rfl, rfl⟩
  | cons c rest ih =>
      obtain ⟨rows, hr, hp⟩ := ih fun x hx => hok x (List.mem_cons_of_mem c hx)
      obtain ⟨r, hres⟩ := hok c (List.mem_cons_self c rest)
      have hop : (opOfName c.operation).isSome := by
        unfold Calculation.result at hres
        cases hop2 : opOfName c.operation
        · rw [hop2] at hres; simp at hres
        · simp
      refine ⟨⟨c.operation, some c.operand1, some c.operand2, some r⟩ :: rows, ?_, ?_⟩
      · unfold rowsOf
        simp only [rowOfCalc, hres, hr, Except.map]
        rfl
      · rw [List.filterMap_cons]
        have hpr : parseRow ⟨c.operation, some c.operand1, some c.operand2, some r⟩ =
            some c := by
          obtain ⟨o1, a1, b1⟩ := c
          simp only [parseRow, CalculationFactory.create_calculation]
          simp only [Option.isSome] at hop
          cases hop2 : opOfName o1
          · rw [hop2] at hop; simp at hop
          · simp [Except.toOption]
        rw [hpr, hp]

/-- C1: whenever `perform_operation` raises `OperationError` — because no
operation is armed or because executing the armed operation fails (division by
zero, negative exponent, negative radicand, zero-degree root) — the history
and the undo stack afterwards have exactly the contents (hence sizes) they had
before the call, no calculation is recorded, and no observer is notified. -/
theorem c1_rollback (s : CalcState) (a b : Option ℚ) (m : String) (s' : CalcState)
    (evs : List (ℕ × Calculation))
    (h : perform_operation s a b = (.error (.operation m), s', evs)) :
    s'.history = s.history ∧ s'.undoStack = s.undoStack ∧ evs = [] := by
  unfold perform_operation at h
  split at h
  · simp_all
  · split at h
    · simp_all
    · split at h
      · simp only [Prod.mk.injEq] at h
        exact ⟨by simp [h.2.1.symm], by simp [h.2.1.symm], h.2.2.symm⟩
      · split at h
        · simp only [Prod.mk.injEq] at h
          obtain ⟨-, h2, h3⟩ := h
          subst h2 h3
          exact ⟨rfl, rfl, rfl⟩
        · split at h
          · simp_all
          · simp_all

/-- Witness for C1 at a concrete state: dividing by zero from `errState`
leaves history and undo stack as they were and notifies nobody. -/
theorem c1_witness :
    errPost.history = errState.history ∧ errPost.undoStack = errState.undoStack ∧
      ([] : List (ℕ × Calculation)) = [] :=
  c1_rollback errState (some 8) (some 0) "Division by zero is not allowed"
    errPost [] (by decide)

/-- C2: after any session of successful `perform_operation` calls, undoing `k`
times (each returning `True`) and then redoing `k` times (each returning
`True`) restores exactly the history that existed before the undos, for every
`k` up to the number of successful operations. -/
theorem c2_undo_redo_inverse (s0 : CalcState)
    (inputs : List (Op × Option ℚ × Option ℚ)) (s : CalcState) (k : ℕ)
    (hrun : runSession s0 inputs = some s) (hk : k ≤ inputs.length) :
    (undoN k s).2 = true ∧ (redoN k (undoN k s).1).2 = true ∧
      (redoN k (undoN k s).1).1.history = s.history := by
  have hlen : k ≤ s.undoStack.length := by
    rw [runSession_undo_length inputs s0 s hrun]; omega
  obtain ⟨h1, h2⟩ := undo_redo_cancel k s hlen
  exact ⟨h1, by rw [h2], by rw [h2]⟩

/-- Witness for C2: two successful operations, two undos, two redos, history
restored. -/
theorem c2_witness :
    (undoN 2 sessionState).2 = true ∧ (redoN 2 (undoN 2 sessionState).1).2 = true ∧
      (redoN 2 (undoN 2 sessionState).1).1.history = sessionState.history :=
  c2_undo_redo_inverse (CalcState.init 1000000)
    [(.add, some 2, some 3), (.multiply, some 2, some 2)] sessionState 2
    (by decide) (by decide)

/-- C3: every successful `perform_operation` pushes exactly the pre-call
history onto the undo stack and empties the redo stack; every `undo` returning
`True` pops exactly one snapshot (which becomes the history) and pushes the
pre-undo history onto the redo stack; every `redo` returning `True` does the
symmetric move. -/
theorem c3_stack_discipline (s : CalcState) :
    (∀ a b r s' evs, perform_operation s a b = (.ok r, s', evs) →
        s'.undoStack = s.history :: s.undoStack ∧ s'.redoStack = []) ∧
    (∀ s', undo s = (true, s') →
        s.undoStack = s'.history :: s'.undoStack ∧
        s'.redoStack = s.history :: s.redoStack) ∧
    (∀ s', redo s = (true, s') →
        s.redoStack = s'.history :: s'.redoStack ∧
        s'.undoStack = s.history :: s.undoStack) := by
  refine ⟨?_, ?_, ?_⟩
  · intro a b r s' evs h
    obtain ⟨c, -, h2, h3, -⟩ := perform_ok s a b r s' evs h
    exact ⟨h2, h3⟩
  · intro s' h
    unfold undo at h
    split at h
    · simp at h
    · next m rest heq =>
        simp only [Prod.mk.injEq, true_and] at h
        subst h
        exact ⟨heq, rfl⟩
  · intro s' h
    unfold redo at h
    split at h
    · simp at h
    · next m rest heq =>
        simp only [Prod.mk.injEq, true_and] at h
        subst h
        exact ⟨heq, rfl⟩

/-- Witness for C3 at a concrete state with nonempty stacks: one successful
operation, one undo, one redo, each moving exactly one snapshot. -/
theorem c3_witness :
    (mixSucc.undoStack = mixState.history :: mixState.undoStack ∧
      mixSucc.redoStack = []) ∧
    (mixState.undoStack = mixUndo.history :: mixUndo.undoStack ∧
      mixUndo.redoStack = mixState.history :: mixState.redoStack) ∧
    (mixState.redoStack = mixRedo.history :: mixRedo.redoStack ∧
      mixRedo.undoStack = mixState.history :: mixState.undoStack) :=
  ⟨(c3_stack_discipline mixState).1 (some 1) (some 2) (1 + 2) mixSucc
      [(3, Calculation.mk "add" 1 2)] (by rfl),
   (c3_stack_discipline mixState).2.1 mixUndo (by decide),
   (c3_stack_discipline mixState).2.2 mixRedo (by decide)⟩

/-- C4: when either input string fails to parse as a decimal or its absolute
value exceeds the configured maximum, `perform_operation` raises
`ValidationError` and the whole state — history, undo stack, redo stack,
armed operation, observers — is completely unchanged (the check precedes any
mutation), and nobody is notified. -/
theorem c4_validation_first (s : CalcState) (a b : Option ℚ)
    (h : a = none ∨ b = none ∨ (∃ q, a = some q ∧ s.maxInput < decimalAbs q) ∨
         (∃ q, b = some q ∧ s.maxInput < decimalAbs q)) :
    ∃ m, perform_operation s a b = (.error (.validation m), s, []) := by
  rcases h with rfl | rfl | ⟨q, rfl, hq⟩ | ⟨q, rfl, hq⟩
  · exact ⟨"Invalid number format", rfl⟩
  · cases hva : validate_number a s.maxInput with
    | error m => exact ⟨m, by simp only [perform_operation]; rw [hva]⟩
    | ok q =>
        refine ⟨"Invalid number format", ?_⟩
        simp only [perform_operation]
        rw [hva]
        rfl
  · refine ⟨"Value exceeds maximum allowed", ?_⟩
    simp [perform_operation, validate_number, hq]
  · cases hva : validate_number a s.maxInput with
    | error m => exact ⟨m, by simp only [perform_operation]; rw [hva]⟩
    | ok p =>
        refine ⟨"Value exceeds maximum allowed", ?_⟩
        simp only [perform_operation]
        rw [hva]
        simp [validate_number, hq]

/-- Witness for C4: an unparseable first input leaves `errState` untouched and
raises `ValidationError`. -/
theorem c4_witness :
    ∃ m, perform_operation errState none (some 1) =
      (.error (.validation m), errState, []) :=
  c4_validation_first errState none (some 1) (Or.inl rfl)

/-- C5: division validation rejects every zero divisor with the
division-by-zero message, so `execute` never returns a quotient there; and the
scenario `performOperation(8, 0)` with divide armed raises `OperationError`
whose message contains the text about division by zero, recording nothing
(history stays of length 0). -/
theorem c5_divide_by_zero :
    (∀ a b : ℚ, b = 0 → Op.divide.execute a b = .error "Division by zero is not allowed") ∧
    (perform_operation divState (some 8) (some 0) =
        (.error (.operation "Division by zero is not allowed"), divState, []) ∧
      divState.history.length = 0 ∧
      ∃ pre post, "Division by zero is not allowed" = pre ++ "Division by zero" ++ post) := by
  refine ⟨?_, by decide, rfl, "", " is not allowed", rfl⟩
  intro a b hb
  subst hb
  simp [Op.execute, Op.validate]

/-- Witness for C5: the zero-divisor hypothesis discharged at `b = 0`. -/
theorem c5_witness :
    ((0 : ℚ) = 0) ∧ Op.divide.execute 8 0 = .error "Division by zero is not allowed" :=
  ⟨rfl, c5_divide_by_zero.1 8 0 rfl⟩

/-- C7: loading a present persistence file never fails; afterwards the history
is exactly the valid rows (registered operation, numeric operands) of the
file, in file order — so N valid and M invalid rows yield exactly N entries,
the invalid ones being skipped. -/
theorem c7_load_skips_invalid (s : CalcState) (rows : List Row) :
    (load_history s (some rows)).history = (rows.filter validRow).map rowCalc ∧
    (load_history s (some rows)).history.length = (rows.filter validRow).length := by
  unfold load_history
  exact ⟨filterMap_parseRow rows, by simp [filterMap_parseRow rows]⟩

/-- C8: for a history of successfully recorded calculations (each result
readable), saving, clearing and loading restores a history of the same length
with the same operation identifiers and operand values, in the same order —
in this embedding, the identical entry list. -/
theorem c8_save_load_round_trip (s : CalcState)
    (hok : ∀ c ∈ s.history, ∃ r, c.result = .ok r) :
    ∃ rows, save_history s = .ok rows ∧
      (load_history (clear_history s) (some rows)).history = s.history ∧
      (load_history (clear_history s) (some rows)).history.length = s.history.length := by
  obtain ⟨rows, hr, hp⟩ := rowsOf_round_trip s.history hok
  exact ⟨rows, hr, by simp [load_history, clear_history, hp],
    by simp [load_history, clear_history, hp]⟩

/-- Witness for C8: a one-entry history round-trips through save, clear and
load. -/
theorem c8_witness :
    ∃ rows, save_history saveState = .ok rows ∧
      (load_history (clear_history saveState) (some rows)).history =
        saveState.history ∧
      (load_history (clear_history saveState) (some rows)).history.length =
        saveState.history.length :=
  c8_save_load_round_trip saveState (by
    intro c hc
    have hc2 : c = Calculation.mk "add" 2 3 := by simpa [saveState] using hc
    subst hc2
    exact ⟨2 + 3, rfl⟩)

/-- C9: `load_history` mutates only the history — undo stack, redo stack,
observers and armed operation are untouched — so an `undo` right after a load
restores a snapshot taken before the load rather than undoing the load. -/
theorem c9_load_frame (s : CalcState) (f : Option (List Row)) :
    (load_history s f).undoStack = s.undoStack ∧
    (load_history s f).redoStack = s.redoStack ∧
    (load_history s f).observers = s.observers ∧
    (load_history s f).operation = s.operation ∧
    (∀ m rest, s.undoStack = m :: rest →
      (undo (load_history s f)).1 = true ∧ (undo (load_history s f)).2.history = m) := by
  have hu : (load_history s f).undoStack = s.undoStack := by cases f <;> rfl
  have hr : (load_history s f).redoStack = s.redoStack := by cases f <;> rfl
  have ho : (load_history s f).observers = s.observers := by cases f <;> rfl
  have hop : (load_history s f).operation = s.operation := by cases f <;> rfl
  refine ⟨hu, hr, ho, hop, ?_⟩
  intro m rest h
  have := undo_cons (load_history s f) m rest (by rw [hu, h])
  rw [this]
  exact ⟨rfl, rfl⟩

/-- Witness for C9: loading a concrete two-row file over `errState` keeps both
stacks, and the next undo restores the pre-load snapshot. -/
theorem c9_witness :
    (load_history errState fileW).undoStack = errState.undoStack ∧
    (load_history errState fileW).redoStack = errState.redoStack ∧
    (load_history errState fileW).observers = errState.observers ∧
    (load_history errState fileW).operation = errState.operation ∧
    (undo (load_history errState fileW)).1 = true ∧
    (undo (load_history errState fileW)).2.history = [] := by
  obtain ⟨h1, h2, h3, h4, h5⟩ := c9_load_frame errState fileW
  obtain ⟨h6, h7⟩ := h5 [] [] (by decide)
  exact ⟨h1, h2, h3, h4, h6, h7⟩

/-- C10: observers live in a plain list with no duplicate check; a successful
`perform_operation` notifies each list entry once, in registration order, with
the newly recorded calculation — so an observer registered `n` times is
notified exactly `n` times — and `add_observer` simply appends. -/
theorem c10_observer_multiplicity (s : CalcState) (a b : Option ℚ) (r : ℚ)
    (s' : CalcState) (evs : List (ℕ × Calculation))
    (h : perform_operation s a b = (.ok r, s', evs)) :
    ∃ c, s'.history = s.history ++ [c] ∧
      evs = s.observers.map (fun o => (o, c)) ∧
      (∀ o : ℕ, (evs.map Prod.fst).count o = s.observers.count o) ∧
      ∀ (t : CalcState) (o : ℕ), (add_observer t o).observers = t.observers ++ [o] := by
  obtain ⟨c, h1, -, -, -, -, -, h7⟩ := perform_ok s a b r s' evs h
  refine ⟨c, h1, h7, ?_, fun t o => rfl⟩
  intro o
  rw [h7, List.map_map]
  have hid : (Prod.fst ∘ fun o : ℕ => (o, c)) = id := rfl
  rw [hid, List.map_id]

/-- Witness for C10: an observer registered twice among three registrations is
notified once per registration, in order. -/
theorem c10_witness :
    ∃ c, obsSucc.history = obsState.history ++ [c] ∧
      obsEvs = obsState.observers.map (fun o => (o, c)) ∧
      (∀ o : ℕ, (obsEvs.map Prod.fst).count o = obsState.observers.count o) ∧
      ∀ (t : CalcState) (o : ℕ), (add_observer t o).observers = t.observers ++ [o] :=
  c10_observer_multiplicity obsState (some 4) (some 2) (4 * 2) obsSucc obsEvs (by rfl)
